import Mathlib

/-!
# TurnipMon: the feed-monitoring loop of `main.go`

A shallow embedding of the cursor (`lastPost`), the notifier
(`sendIftttRequest`), the startup fast-forward and the periodic `TaskFunc`
of `main.go`, followed by theorems about them.

The two network collaborators are oracles held in `Env`:

* `Env.NewPosts n limit before` is the answer of the `n`-th call (counted from
  zero) of `client.Subreddit.NewPosts` with `ListOptions{Limit, Before}`
  (`before = ""` when the option is not set);
* `Env.Post k req` is the answer of the `k`-th HTTP POST issued through resty.

Both are arbitrary functions of the call number, so every deterministic
behaviour of the outside world over time is covered.
-/

namespace TurnipMon

/-! ## Data model -/

/-- The fields of `reddit.Post` read by `main.go`. `Created` is an instant in
nanoseconds since the Unix epoch. -/
structure Post where
  FullID : String
  Title : String
  URL : String
  Created : Int
deriving DecidableEq

/-- The JSON body built in `sendIftttRequest`. -/
structure payload where
  Value1 : String
  Value2 : String
  Value3 : String
deriving DecidableEq

/-- One HTTP POST: target address and body. -/
structure Request where
  url : String
  body : payload
deriving DecidableEq

/-- The pair `(resp, err)` returned by resty's `Post`: `err` is `none` for a
nil error, `StatusCode` is `resp.StatusCode()`. -/
structure Response where
  err : Option String
  StatusCode : Int
deriving DecidableEq

/-- One call `sendIftttRequest(ctx, title, uri)`, as recorded in the trace.
`title` and `uri` are the arguments of the call; `id` is the `FullID` of the
post the arguments were read from (the callee never sees it). -/
structure Dispatch where
  id : String
  title : String
  uri : String
deriving DecidableEq

/-- The configuration and the outside world. -/
structure Env where
  cfgIftttEventName : String
  cfgIftttKey : String
  /-- The value of `time.Now()` read by the fast-forward, in nanoseconds. -/
  now : Int
  NewPosts : Nat → Nat → String → Except String (List Post)
  Post : Nat → Request → Response

/-- The mutable state: the package-level `lastPost` (nil until the
fast-forward sets it), the trace of notifier calls made so far, and the number
of feed fetches made so far. -/
structure State where
  lastPost : Option Post
  calls : List Dispatch
  fetches : Nat
deriving DecidableEq

/-- What a tick body reports: `nil`, a non-nil `error`, or a runtime panic
(dereferencing a nil `lastPost`). -/
inductive Ret where
  | nil
  | err (msg : String)
  | nilDeref
deriving DecidableEq

/-! ## Time -/

/-- The constant `time.Second`, in nanoseconds. -/
def Second : Int := 1000000000

/-- The constant `time.Minute`, in nanoseconds. -/
def Minute : Int := 60 * Second

/-- Largest `time.Duration` (an int64 count of nanoseconds). -/
def maxDuration : Int := 2 ^ 63 - 1

/-- Smallest `time.Duration`. -/
def minDuration : Int := -(2 ^ 63)

/-- The method `Time.Sub`: the difference `t - u`, saturated to the range of
`time.Duration`. -/
def Sub (t u : Int) : Int :=
  if maxDuration < t - u then maxDuration
  else if t - u < minDuration then minDuration
  else t - u

/-! ## Notifier -/

/-- Modelled from the spec: resty's `Response.IsSuccess` is library code that
is not part of `main.go`; the spec says "success = any 2xx response". -/
def IsSuccess (StatusCode : Int) : Bool :=
  decide (199 < StatusCode ∧ StatusCode < 300)

/-- The request built by `sendIftttRequest` for a title and a URI. -/
def iftttRequest (env : Env) (title uri : String) : Request :=
  { url := "https://maker.ifttt.com/trigger/" ++ env.cfgIftttEventName
      ++ "/with/key/" ++ env.cfgIftttKey
    body :=
      { Value1 := title
        Value2 := uri
        Value3 := "https://dodo.ac/np/images/8/86/Turnips_NH_Inv_Icon.png" } }

/-- The function `sendIftttRequest`, as the `k`-th POST of the process:
`none` is a nil error. -/
def sendIftttRequest (env : Env) (k : Nat) (title uri : String) : Option String :=
  let r := env.Post k (iftttRequest env title uri)
  match r.err with
  | some e => some e
  | none =>
    if !IsSuccess r.StatusCode then some "failed to send IFTTT request"
    else none

/-! ## Cursor -/

/-- The function `updateLastPost`. -/
def updateLastPost (s : State) (p : Post) : State :=
  { s with lastPost := some p }

/-- The trace entry of the call `sendIftttRequest(ctx, v.Title, v.URL)`. -/
def dispatchOf (v : Post) : Dispatch :=
  { id := v.FullID, title := v.Title, uri := v.URL }

/-- The state after a call of `sendIftttRequest` for post `v` has been issued:
the call is appended to the trace. -/
def record (s : State) (v : Post) : State :=
  { s with calls := s.calls ++ [dispatchOf v] }

/-! ## Tick body -/

/-- The loop `for _, v := range posts` of `TaskFunc`: one notifier call per
post in slice order, returning at the first error. -/
def rangePosts (env : Env) : List Post → State → State × Option String
  | [], s => (s, none)
  | v :: rest, s =>
    match sendIftttRequest env s.calls.length v.Title v.URL with
    | some e => (record s v, some e)
    | none => rangePosts env rest (record s v)

/-- The closure `TaskFunc` registered with the scheduler. -/
def TaskFunc (env : Env) (s : State) : State × Ret :=
  match s.lastPost with
  | none => (s, Ret.nilDeref)
  | some lp =>
    match env.NewPosts s.fetches 5 lp.FullID with
    | Except.error e => ({ s with fetches := s.fetches + 1 }, Ret.err e)
    | Except.ok posts =>
      let s1 : State := { s with fetches := s.fetches + 1 }
      match posts with
      | [] => (s1, Ret.nil)
      | p0 :: rest =>
        match rangePosts env (p0 :: rest) s1 with
        | (s2, some e) => (s2, Ret.err e)
        | (s2, none) => (updateLastPost s2 p0, Ret.nil)

/-! ## Scheduler and process -/

/-- The three scheduler states of the spec. -/
inductive Sched where
  | Idle
  | Polling
  | Terminated
deriving DecidableEq

/-- The process: its state and where the scheduler stands. -/
structure Proc where
  st : State
  sched : Sched
deriving DecidableEq

/-- Modelled from the spec: `pterm.Fatal` is library code that is not part of
`main.go`; the spec says the fatal-error handler "terminates the entire
process". Every `pterm.Fatal.Println` / failing `PrintOnError` goes here. -/
def Fatal (s : State) : Proc :=
  { st := s, sched := Sched.Terminated }

/-- The closure `ErrFunc` registered with the scheduler: it hands the error
to `pterm.Fatal.Println`. -/
def ErrFunc (_err : String) (s : State) : Proc :=
  Fatal s

/-- Modelled from the spec: the scheduler of `madflojo/tasks` is library code
that is not part of `main.go`; per the spec it fires the timer
(`Idle → Polling`), runs the tick body, goes back to `Idle` when the body
returns nil and hands any error to `ErrFunc`. A panic of the tick body ends
the process as well. A terminated process has no step. -/
def step (env : Env) (p : Proc) : Option Proc :=
  match p.sched with
  | Sched.Idle => some { p with sched := Sched.Polling }
  | Sched.Polling =>
    match TaskFunc env p.st with
    | (s, Ret.nil) => some { st := s, sched := Sched.Idle }
    | (s, Ret.err e) => some (ErrFunc e s)
    | (s, Ret.nilDeref) => some { st := s, sched := Sched.Terminated }
  | Sched.Terminated => none

/-- The first `n` scheduler steps from `p` (fewer when the process
terminates). -/
def run (env : Env) : Nat → Proc → Proc
  | 0, p => p
  | n + 1, p =>
    match step env p with
    | none => p
    | some q => run env n q

/-- The state of a process that has not started. -/
def init : State :=
  { lastPost := none, calls := [], fetches := 0 }

/-- The fast-forward of `main`: the first fetch, the cursor, and the
notification of a head younger than thirty minutes. -/
def fastForward (env : Env) : Proc :=
  match env.NewPosts init.fetches 5 "" with
  | Except.error _ => Fatal { init with fetches := init.fetches + 1 }
  | Except.ok posts =>
    let s1 : State := { init with fetches := init.fetches + 1 }
    match posts with
    | [] => Fatal s1
    | p0 :: _ =>
      let s2 := updateLastPost s1 p0
      if Sub env.now p0.Created < Minute * 30 then
        match sendIftttRequest env s2.calls.length p0.Title p0.URL with
        | some _ => Fatal (record s2 p0)
        | none => { st := record s2 p0, sched := Sched.Idle }
      else { st := s2, sched := Sched.Idle }

/-- The function `main` after configuration: the fast-forward followed by `n`
scheduler steps. -/
def main (env : Env) (n : Nat) : Proc :=
  run env n (fastForward env)

/-! ## Vocabulary of the claims -/

/-- The ids handed to the notifier so far, in call order. -/
def notifiedIDs (s : State) : List String :=
  s.calls.map Dispatch.id

/-- The `(title, url)` pairs handed to the notifier so far, in call order. -/
def sent (s : State) : List (String × String) :=
  s.calls.map fun d => (d.title, d.uri)

/-- A feed client that returns only items strictly more recent than the
`before` cursor it is given (`recency` orders the ids). The string `""` is
Go's zero value of an unset `Before`; `recency ""` is then a bound below every
item the feed ever returns, such as `0` under positive recencies. -/
def NewerThanBefore (recency : String → Nat) (env : Env) : Prop :=
  ∀ n before posts, env.NewPosts n 5 before = Except.ok posts →
    ∀ p ∈ posts, recency before < recency p.FullID

/-- A feed client whose every answer holds pairwise distinct ids. -/
def DistinctItems (env : Env) : Prop :=
  ∀ n before posts, env.NewPosts n 5 before = Except.ok posts →
    (posts.map Post.FullID).Nodup

/-- A feed client whose every answer holds at most five items. -/
def AtMostFive (env : Env) : Prop :=
  ∀ n before posts, env.NewPosts n 5 before = Except.ok posts → posts.length ≤ 5

/-- A feed client whose every answer starts with its most recent item, as a
newest-first listing does. -/
def HeadIsNewest (recency : String → Nat) (env : Env) : Prop :=
  ∀ n before p0 rest, env.NewPosts n 5 before = Except.ok (p0 :: rest) →
    ∀ p ∈ rest, recency p.FullID ≤ recency p0.FullID

/-- A batch in oldest-first order of recency. -/
def OldestFirst (recency : String → Nat) (posts : List Post) : Prop :=
  posts.Pairwise fun a b => recency a.FullID < recency b.FullID

/-- A batch in newest-first order of recency. -/
def NewestFirst (recency : String → Nat) (posts : List Post) : Prop :=
  posts.Pairwise fun a b => recency b.FullID < recency a.FullID

/-- The tick body run `n` times in a row, whatever each run returns. -/
def ticks (env : Env) : Nat → State → State
  | 0, s => s
  | n + 1, s => (TaskFunc env (ticks env n s)).1

/-- What the runs of a process keep true: no id was handed to the notifier
twice, and while the process lives the cursor is at least as recent as every
id handed to the notifier. -/
def Settled (recency : String → Nat) (p : Proc) : Prop :=
  (notifiedIDs p.st).Nodup ∧
  (p.sched ≠ Sched.Terminated →
    ∃ c, p.st.lastPost = some c ∧
      ∀ id ∈ notifiedIDs p.st, recency id ≤ recency c.FullID)

/-! ## Concrete scenarios

The three items of the spec's end-to-end scenario, and feeds serving them. The
clock stands at one hour; `t3_aaa` is five minutes old. -/

/-- The clock of the scenarios: one hour after the epoch. -/
def clock : Int := 60 * Minute

/-- The head of the feed at startup. -/
def postA : Post :=
  { FullID := "t3_aaa", Title := "A", URL := "ua", Created := 55 * Minute }

/-- The first item posted after startup. -/
def postB : Post :=
  { FullID := "t3_bbb", Title := "B", URL := "ub", Created := 61 * Minute }

/-- The second item posted after startup. -/
def postC : Post :=
  { FullID := "t3_ccc", Title := "C", URL := "uc", Created := 62 * Minute }

/-- The recency of the scenario ids; every other string is older. -/
def recencyOf (id : String) : Nat :=
  if id = "t3_aaa" then 1
  else if id = "t3_bbb" then 2
  else if id = "t3_ccc" then 3
  else 0

/-- What a feed holding `feed` answers: the items strictly more recent than
`before`, in the order of `feed`, capped at `limit`. -/
def serve (feed : List Post) (limit : Nat) (before : String) : List Post :=
  (feed.filter fun p => decide (recencyOf before < recencyOf p.FullID)).take limit

/-- A feed that lists newest-first and a notifier that always answers 200. At
the first fetch only `t3_aaa` exists. -/
def envNewestFirst : Env :=
  { cfgIftttEventName := "turnip"
    cfgIftttKey := "key"
    now := clock
    NewPosts := fun n limit before =>
      Except.ok (serve (if n = 0 then [postA] else [postC, postB, postA]) limit before)
    Post := fun _ _ => { err := none, StatusCode := 200 } }

/-- The same items listed oldest-first, the order the spec names as the
expected collaborator contract. -/
def envOldestFirst : Env :=
  { envNewestFirst with
    NewPosts := fun n limit before =>
      Except.ok (serve (if n = 0 then [postA] else [postA, postB, postC]) limit before) }

/-- The newest-first feed with a notifier whose third POST (number 2) is
answered 500. -/
def envFailing : Env :=
  { envNewestFirst with
    Post := fun k _ =>
      if k = 2 then { err := none, StatusCode := 500 }
      else { err := none, StatusCode := 200 } }

/-- The newest-first feed with a stale head: the clock stands thirty minutes
and one second after `t3_aaa` was created. -/
def envStale : Env :=
  { envNewestFirst with now := 85 * Minute + Second }

/-- A feed that answers nothing new. -/
def envQuiet : Env :=
  { envNewestFirst with NewPosts := fun _ limit before => Except.ok (serve [postA] limit before) }

/-- The state right after a fast-forward that notified `t3_aaa`. -/
def afterStartup : State :=
  { lastPost := some postA, calls := [dispatchOf postA], fetches := 1 }

end TurnipMon

namespace TurnipMon

/-! ## The notification loop -/

theorem record_calls (s : State) (v : Post) :
    (record s v).calls = s.calls ++ [dispatchOf v] := rfl

theorem record_lastPost (s : State) (v : Post) :
    (record s v).lastPost = s.lastPost := rfl

theorem record_fetches (s : State) (v : Post) :
    (record s v).fetches = s.fetches := rfl

/-- When every dispatch succeeds the loop runs over the whole slice. -/
theorem rangePosts_ok (env : Env) : ∀ (l : List Post) (s : State),
    (∀ i w, l[i]? = some w →
      sendIftttRequest env (s.calls.length + i) w.Title w.URL = none) →
    rangePosts env l s = ({ s with calls := s.calls ++ l.map dispatchOf }, none)
  | [], s, _ => by simp [rangePosts]
  | v :: rest, s, h => by
    have h0 : sendIftttRequest env s.calls.length v.Title v.URL = none := by
      simpa using h 0 v (by simp)
    have ih := rangePosts_ok env rest (record s v) (fun i w hi => by
      have := h (i + 1) w (by simpa using hi)
      simpa [record_calls, Nat.add_assoc, Nat.add_comm 1 i] using this)
    simp only [rangePosts, h0, ih]
    simp [record]

/-- When dispatch number `M` is the first to fail the loop stops right after
it, with its error. -/
theorem rangePosts_fail (env : Env) : ∀ (l : List Post) (s : State) (M : Nat)
    (v : Post) (e : String), l[M]? = some v →
    (∀ i w, i < M → l[i]? = some w →
      sendIftttRequest env (s.calls.length + i) w.Title w.URL = none) →
    sendIftttRequest env (s.calls.length + M) v.Title v.URL = some e →
    rangePosts env l s
      = ({ s with calls := s.calls ++ (l.take (M + 1)).map dispatchOf }, some e)
  | [], _, M, _, _, hM, _, _ => by simp at hM
  | u :: rest, s, 0, v, e, hM, _, hfail => by
    have huv : u = v := by simpa using hM
    subst huv
    have h0 : sendIftttRequest env s.calls.length u.Title u.URL = some e := by
      simpa using hfail
    simp only [rangePosts, h0]
    simp [record]
  | u :: rest, s, M + 1, v, e, hM, hok, hfail => by
    have h0 : sendIftttRequest env s.calls.length u.Title u.URL = none := by
      simpa using hok 0 u (Nat.succ_pos M) (by simp)
    have ih := rangePosts_fail env rest (record s u) M v e (by simpa using hM)
      (fun i w hi hw => by
        have := hok (i + 1) w (Nat.succ_lt_succ hi) (by simpa using hw)
        simpa [record_calls, Nat.add_assoc, Nat.add_comm 1 i] using this)
      (by simpa [record_calls, Nat.add_assoc, Nat.add_comm 1 M] using hfail)
    simp only [rangePosts, h0, ih]
    simp [record]

/-- Whatever the notifier answers, the loop appends the trace entries of a
prefix of the slice and touches nothing else; it returns nil only after the
whole slice. -/
theorem rangePosts_shape (env : Env) : ∀ (l : List Post) (s : State),
    ∃ k, k ≤ l.length ∧
      (rangePosts env l s).1 = { s with calls := s.calls ++ (l.take k).map dispatchOf } ∧
      ((rangePosts env l s).2 = none → k = l.length)
  | [], s => ⟨0, by simp [rangePosts]⟩
  | v :: rest, s => by
    cases h0 : sendIftttRequest env s.calls.length v.Title v.URL with
    | some e =>
      refine ⟨1, by simp, ?_, ?_⟩
      · simp [rangePosts, h0, record]
      · simp [rangePosts, h0]
    | none =>
      obtain ⟨k, hk, hst, hnone⟩ := rangePosts_shape env rest (record s v)
      refine ⟨k + 1, by simpa using hk, ?_, ?_⟩
      · simp only [rangePosts, h0, hst]
        simp [record]
      · intro h
        simp only [rangePosts, h0] at h
        simpa using hnone h


/-! ## One tick -/

/-- The tick of a process whose fetch fails. -/
theorem TaskFunc_fetchErr (env : Env) (s : State) (c : Post) (e : String)
    (hc : s.lastPost = some c)
    (hf : env.NewPosts s.fetches 5 c.FullID = Except.error e) :
    TaskFunc env s = ({ s with fetches := s.fetches + 1 }, Ret.err e) := by
  simp only [TaskFunc, hc, hf]

/-- The tick of a process whose fetch returns nothing. -/
theorem TaskFunc_empty (env : Env) (s : State) (c : Post)
    (hc : s.lastPost = some c)
    (hf : env.NewPosts s.fetches 5 c.FullID = Except.ok []) :
    TaskFunc env s = ({ s with fetches := s.fetches + 1 }, Ret.nil) := by
  simp only [TaskFunc, hc, hf]

/-- The tick of a process whose batch is notified in full. -/
theorem TaskFunc_ok (env : Env) (s : State) (c p0 : Post) (rest : List Post)
    (hc : s.lastPost = some c)
    (hf : env.NewPosts s.fetches 5 c.FullID = Except.ok (p0 :: rest))
    (hok : ∀ i w, (p0 :: rest)[i]? = some w →
      sendIftttRequest env (s.calls.length + i) w.Title w.URL = none) :
    TaskFunc env s
      = ({ lastPost := some p0
           calls := s.calls ++ (p0 :: rest).map dispatchOf
           fetches := s.fetches + 1 }, Ret.nil) := by
  obtain ⟨lp, calls, fetches⟩ := s
  simp only at hc hf hok
  subst hc
  have h := rangePosts_ok env (p0 :: rest)
    { lastPost := some c, calls := calls, fetches := fetches + 1 } hok
  simp only [TaskFunc, hf, h, updateLastPost]

/-- The tick of a process whose dispatch number `M` is the first to fail. -/
theorem TaskFunc_fail (env : Env) (s : State) (c : Post) (posts : List Post)
    (M : Nat) (v : Post) (e : String)
    (hc : s.lastPost = some c)
    (hf : env.NewPosts s.fetches 5 c.FullID = Except.ok posts)
    (hM : posts[M]? = some v)
    (hok : ∀ i w, i < M → posts[i]? = some w →
      sendIftttRequest env (s.calls.length + i) w.Title w.URL = none)
    (hfail : sendIftttRequest env (s.calls.length + M) v.Title v.URL = some e) :
    TaskFunc env s
      = ({ lastPost := s.lastPost
           calls := s.calls ++ (posts.take (M + 1)).map dispatchOf
           fetches := s.fetches + 1 }, Ret.err e) := by
  obtain ⟨lp, calls, fetches⟩ := s
  simp only at hc hf hok hfail
  subst hc
  have h := rangePosts_fail env posts
    { lastPost := some c, calls := calls, fetches := fetches + 1 } M v e hM hok hfail
  cases posts with
  | nil => simp at hM
  | cons p0 rest => simp only [TaskFunc, hf, h]


/-! ## Claims about one tick -/

/-- C2 (no partial advance): when the fetch of a tick returns a batch and the
notifier fails on item number `M` after `M` successful dispatches, the tick
returns that error and `lastPost` is what it was before the tick. -/
theorem C2_cursor_kept_on_failure (env : Env) (s : State) (c : Post) (posts : List Post)
    (M : Nat) (v : Post) (e : String)
    (hc : s.lastPost = some c)
    (hf : env.NewPosts s.fetches 5 c.FullID = Except.ok posts)
    (hM : posts[M]? = some v)
    (hok : ∀ i w, i < M → posts[i]? = some w →
      sendIftttRequest env (s.calls.length + i) w.Title w.URL = none)
    (hfail : sendIftttRequest env (s.calls.length + M) v.Title v.URL = some e) :
    (TaskFunc env s).2 = Ret.err e ∧ (TaskFunc env s).1.lastPost = s.lastPost := by
  rw [TaskFunc_fail env s c posts M v e hc hf hM hok hfail]
  exact ⟨rfl, rfl⟩

/-- The second dispatch of a two-item batch is answered 500: the tick returns
the notifier's error and the cursor stays on `t3_aaa`. -/
theorem C2_cursor_kept_on_failure_witness :
    envFailing.NewPosts afterStartup.fetches 5 postA.FullID = Except.ok [postC, postB] ∧
    (TaskFunc envFailing afterStartup).2 = Ret.err "failed to send IFTTT request" ∧
    (TaskFunc envFailing afterStartup).1.lastPost = some postA :=
  ⟨rfl,
    C2_cursor_kept_on_failure envFailing afterStartup postA [postC, postB] 1 postB
      "failed to send IFTTT request" (by decide) rfl (by decide)
      (by
        intro i w hi hw
        obtain rfl : i = 0 := by omega
        obtain rfl : postC = w := by simpa using hw
        decide)
      (by decide)⟩

/-- C4 (cursor policy): when the fetch of a tick returns a non-empty batch and
every notification succeeds, the tick returns nil and `lastPost` is the first
element of the batch, whatever the other elements are. -/
theorem C4_cursor_is_first_element (env : Env) (s : State) (c p0 : Post)
    (rest : List Post)
    (hc : s.lastPost = some c)
    (hf : env.NewPosts s.fetches 5 c.FullID = Except.ok (p0 :: rest))
    (hok : ∀ i w, (p0 :: rest)[i]? = some w →
      sendIftttRequest env (s.calls.length + i) w.Title w.URL = none) :
    (TaskFunc env s).2 = Ret.nil ∧ (TaskFunc env s).1.lastPost = some p0 := by
  rw [TaskFunc_ok env s c p0 rest hc hf hok]
  exact ⟨rfl, rfl⟩

/-- An oldest-first batch notified in full: the cursor becomes its first
element `t3_bbb`. -/
theorem C4_cursor_is_first_element_witness :
    envOldestFirst.NewPosts afterStartup.fetches 5 postA.FullID = Except.ok [postB, postC] ∧
    (TaskFunc envOldestFirst afterStartup).2 = Ret.nil ∧
    (TaskFunc envOldestFirst afterStartup).1.lastPost = some postB :=
  ⟨rfl,
    C4_cursor_is_first_element envOldestFirst afterStartup postA postB [postC]
      (by decide) rfl (fun _ _ _ => rfl)⟩

/-- C6 (dispatch order): for a tick with a non-empty batch, let `k` be the
index of the first item whose dispatch fails, or the last index if none fails;
the `(title, url)` pairs handed to the notifier during the tick are exactly
those of items `0, ..., k` in returned order. -/
theorem C6_dispatch_sequence (env : Env) (s : State) (c : Post) (posts : List Post)
    (k : Nat)
    (hc : s.lastPost = some c)
    (hf : env.NewPosts s.fetches 5 c.FullID = Except.ok posts)
    (hk : k < posts.length)
    (hok : ∀ i w, i < k → posts[i]? = some w →
      sendIftttRequest env (s.calls.length + i) w.Title w.URL = none)
    (hlast : (∃ w, posts[k]? = some w ∧
        sendIftttRequest env (s.calls.length + k) w.Title w.URL ≠ none) ∨
      k + 1 = posts.length) :
    sent (TaskFunc env s).1
      = sent s ++ (posts.take (k + 1)).map fun p => (p.Title, p.URL) := by
  have hget : posts[k]? = some (posts[k]) := List.getElem?_eq_getElem hk
  cases hsend : sendIftttRequest env (s.calls.length + k) (posts[k]).Title (posts[k]).URL with
  | some e =>
    rw [TaskFunc_fail env s c posts k (posts[k]) e hc hf hget hok hsend]
    simp [sent, dispatchOf, Function.comp_def]
  | none =>
    have hlen : k + 1 = posts.length := by
      rcases hlast with ⟨w, hw, hne⟩ | h
      · rw [hget] at hw
        obtain rfl : posts[k] = w := by simpa using hw
        exact absurd hsend hne
      · exact h
    have hall : ∀ i w, posts[i]? = some w →
        sendIftttRequest env (s.calls.length + i) w.Title w.URL = none := by
      intro i w hw
      have hi : i < posts.length := (List.getElem?_eq_some_iff.mp hw).1
      rcases Nat.lt_or_ge i k with h | h
      · exact hok i w h hw
      · obtain rfl : i = k := by omega
        rw [hget] at hw
        obtain rfl : posts[i] = w := by simpa using hw
        exact hsend
    cases posts with
    | nil => simp at hk
    | cons p0 rest =>
      have htake : (p0 :: rest).take (k + 1) = p0 :: rest :=
        List.take_of_length_le (Nat.le_of_eq hlen.symm)
      rw [TaskFunc_ok env s c p0 rest hc hf hall, htake]
      simp [sent, dispatchOf, Function.comp_def]

/-- A two-item batch whose second dispatch fails: both items are handed to the
notifier, in returned order, after the startup notification. -/
theorem C6_dispatch_sequence_witness :
    sent (TaskFunc envFailing afterStartup).1
      = sent afterStartup ++ [("C", "uc"), ("B", "ub")] :=
  C6_dispatch_sequence envFailing afterStartup postA [postC, postB] 1
    (by decide) rfl (by decide)
    (by
      intro i w hi hw
      obtain rfl : i = 0 := by omega
      obtain rfl : postC = w := by simpa using hw
      decide)
    (Or.inl ⟨postB, by decide, by decide⟩)

/-- C7 (empty batch): when the fetch of a tick succeeds with zero items, the
tick returns nil, makes no notifier call and leaves `lastPost` as it was. -/
theorem C7_empty_batch_tick (env : Env) (s : State) (c : Post)
    (hc : s.lastPost = some c)
    (hf : env.NewPosts s.fetches 5 c.FullID = Except.ok []) :
    (TaskFunc env s).2 = Ret.nil ∧ (TaskFunc env s).1.calls = s.calls ∧
      (TaskFunc env s).1.lastPost = s.lastPost := by
  rw [TaskFunc_empty env s c hc hf]
  exact ⟨rfl, rfl, rfl⟩

/-- A quiet feed: the tick succeeds, the trace and the cursor are unchanged. -/
theorem C7_empty_batch_tick_witness :
    envQuiet.NewPosts afterStartup.fetches 5 postA.FullID = Except.ok [] ∧
    (TaskFunc envQuiet afterStartup).2 = Ret.nil ∧
    (TaskFunc envQuiet afterStartup).1.calls = [dispatchOf postA] ∧
    (TaskFunc envQuiet afterStartup).1.lastPost = some postA :=
  ⟨rfl, C7_empty_batch_tick envQuiet afterStartup postA (by decide) rfl⟩


/-! ## Which item becomes the cursor -/

/-- The first element of a newest-first batch is at least as recent as every
element. -/
theorem NewestFirst.head_max (recency : String → Nat) (p0 : Post) (rest : List Post)
    (h : NewestFirst recency (p0 :: rest)) :
    ∀ p ∈ p0 :: rest, recency p.FullID ≤ recency p0.FullID := by
  intro p hp
  rcases List.mem_cons.mp hp with rfl | hp
  · exact Nat.le_refl _
  · exact Nat.le_of_lt ((List.pairwise_cons.mp h).1 p hp)

/-- C3, as stated, fails: an oldest-first batch `[t3_bbb, t3_ccc]` is notified
in full and the cursor becomes `t3_bbb`, which is older than `t3_ccc`. -/
theorem C3_oldest_first_counterexample :
    afterStartup.lastPost = some postA ∧
    envOldestFirst.NewPosts afterStartup.fetches 5 postA.FullID
      = Except.ok [postB, postC] ∧
    OldestFirst recencyOf [postB, postC] ∧
    (∀ i w, [postB, postC][i]? = some w →
      sendIftttRequest envOldestFirst (afterStartup.calls.length + i) w.Title w.URL = none) ∧
    (TaskFunc envOldestFirst afterStartup).1.lastPost = some postB ∧
    postC ∈ [postB, postC] ∧
    recencyOf postB.FullID < recencyOf postC.FullID :=
  ⟨rfl, rfl, by unfold OldestFirst; decide, fun _ _ _ => rfl, by decide, by decide,
    by decide⟩

/-- C3 (amended): when the fetch of a tick returns a non-empty batch in
newest-first order and every notification succeeds, `lastPost` after the tick
is an item of the batch that is at least as recent as every item of the
batch. -/
theorem C3_cursor_most_recent_newest_first (recency : String → Nat) (env : Env)
    (s : State) (c : Post) (posts : List Post)
    (hc : s.lastPost = some c)
    (hf : env.NewPosts s.fetches 5 c.FullID = Except.ok posts)
    (hne : posts ≠ [])
    (horder : NewestFirst recency posts)
    (hok : ∀ i w, posts[i]? = some w →
      sendIftttRequest env (s.calls.length + i) w.Title w.URL = none) :
    ∃ c', (TaskFunc env s).1.lastPost = some c' ∧ c' ∈ posts ∧
      ∀ p ∈ posts, recency p.FullID ≤ recency c'.FullID := by
  cases posts with
  | nil => exact absurd rfl hne
  | cons p0 rest =>
    refine ⟨p0, ?_, List.mem_cons_self p0 rest, NewestFirst.head_max recency p0 rest horder⟩
    rw [TaskFunc_ok env s c p0 rest hc hf hok]

/-- A newest-first batch `[t3_ccc, t3_bbb]` notified in full: the cursor
becomes `t3_ccc`, the most recent of the two. -/
theorem C3_cursor_most_recent_newest_first_witness :
    NewestFirst recencyOf [postC, postB] ∧
    ∃ c', (TaskFunc envNewestFirst afterStartup).1.lastPost = some c' ∧
      c' ∈ [postC, postB] ∧
      ∀ p ∈ [postC, postB], recencyOf p.FullID ≤ recencyOf c'.FullID :=
  ⟨by unfold NewestFirst; decide,
    C3_cursor_most_recent_newest_first recencyOf envNewestFirst afterStartup postA
      [postC, postB] (by decide) rfl (by decide) (by unfold NewestFirst; decide)
      (fun _ _ _ => rfl)⟩

/-! ## Fast-forward -/

/-- The saturation of `Time.Sub` does not move the thirty-minute test. -/
theorem Sub_lt_thirty (t u : Int) : Sub t u < Minute * 30 ↔ t - u < 30 * Minute := by
  unfold Sub maxDuration minDuration Minute Second
  norm_num
  split_ifs <;> omega

/-- The fast-forward over a non-empty first fetch whose head is fresh. -/
theorem fastForward_fresh (env : Env) (p0 : Post) (rest : List Post)
    (hf : env.NewPosts 0 5 "" = Except.ok (p0 :: rest))
    (hage : env.now - p0.Created < 30 * Minute) :
    (fastForward env).st
      = { lastPost := some p0, calls := [dispatchOf p0], fetches := 1 } := by
  have h := (Sub_lt_thirty env.now p0.Created).mpr hage
  simp only [fastForward, init, hf, h, if_true, updateLastPost]
  cases sendIftttRequest env ([] : List Dispatch).length p0.Title p0.URL <;>
    simp [Fatal, record]

/-- The fast-forward over a non-empty first fetch whose head is stale. -/
theorem fastForward_stale (env : Env) (p0 : Post) (rest : List Post)
    (hf : env.NewPosts 0 5 "" = Except.ok (p0 :: rest))
    (hage : 30 * Minute ≤ env.now - p0.Created) :
    fastForward env
      = { st := { lastPost := some p0, calls := [], fetches := 1 }, sched := Sched.Idle } := by
  have h : ¬ Sub env.now p0.Created < Minute * 30 := by
    rw [Sub_lt_thirty]
    omega
  simp only [fastForward, init, hf, h, if_false, updateLastPost]

/-- C5 (fast-forward threshold): when the first fetch returns a non-empty
list with head `p0` and `age = now - p0.Created`: if `age < 30` minutes exactly
one notification is dispatched, for `p0` with its title and URL; if
`age ≥ 30` minutes (thirty minutes sharp included) none is; in both cases
`lastPost` is `p0`. An age of 29m59s gives one notification, 30m01s none. -/
theorem C5_fast_forward_threshold (env : Env) (p0 : Post) (rest : List Post)
    (hf : env.NewPosts 0 5 "" = Except.ok (p0 :: rest)) :
    (env.now - p0.Created < 30 * Minute →
      (fastForward env).st.calls
        = [{ id := p0.FullID, title := p0.Title, uri := p0.URL }]) ∧
    (30 * Minute ≤ env.now - p0.Created → (fastForward env).st.calls = []) ∧
    (fastForward env).st.lastPost = some p0 ∧
    (env.now - p0.Created = 29 * Minute + 59 * Second →
      (fastForward env).st.calls.length = 1) ∧
    (env.now - p0.Created = 30 * Minute + Second →
      (fastForward env).st.calls.length = 0) := by
  refine ⟨?_, ?_, ?_, ?_, ?_⟩
  · intro h
    rw [fastForward_fresh env p0 rest hf h]
    rfl
  · intro h
    rw [fastForward_stale env p0 rest hf h]
  · rcases Int.lt_or_le (env.now - p0.Created) (30 * Minute) with h | h
    · rw [fastForward_fresh env p0 rest hf h]
    · rw [fastForward_stale env p0 rest hf h]
  · intro h
    have h' : env.now - p0.Created < 30 * Minute := by
      rw [h]
      unfold Minute Second
      omega
    rw [fastForward_fresh env p0 rest hf h']
    rfl
  · intro h
    have h' : 30 * Minute ≤ env.now - p0.Created := by
      rw [h]
      unfold Minute Second
      omega
    rw [fastForward_stale env p0 rest hf h']
    rfl

/-- A head that is five minutes old is notified once and becomes the
cursor. -/
theorem C5_fast_forward_threshold_witness :
    (fastForward envNewestFirst).st.calls
      = [{ id := "t3_aaa", title := "A", uri := "ua" }] ∧
    (fastForward envNewestFirst).st.lastPost = some postA :=
  have h := C5_fast_forward_threshold envNewestFirst postA [] rfl
  ⟨h.1 (by decide), h.2.2.1⟩

/-! ## Notifier result -/

/-- C10 (notifier result): `sendIftttRequest` returns an error exactly when
the transport call returned an error or the status code is outside 200..299;
a 2xx answer without transport error gives nil. -/
theorem C10_notifier_error_iff (env : Env) (k : Nat) (title uri : String) :
    (sendIftttRequest env k title uri ≠ none ↔
      (env.Post k (iftttRequest env title uri)).err ≠ none ∨
      ¬ (200 ≤ (env.Post k (iftttRequest env title uri)).StatusCode ∧
          (env.Post k (iftttRequest env title uri)).StatusCode ≤ 299)) ∧
    ((env.Post k (iftttRequest env title uri)).err = none ∧
      200 ≤ (env.Post k (iftttRequest env title uri)).StatusCode ∧
      (env.Post k (iftttRequest env title uri)).StatusCode ≤ 299 →
      sendIftttRequest env k title uri = none) := by
  unfold sendIftttRequest IsSuccess
  generalize env.Post k (iftttRequest env title uri) = r
  obtain ⟨err, code⟩ := r
  cases err with
  | some e => simp
  | none =>
    simp only [ne_eq, not_true_eq_false, false_or, true_and]
    constructor
    · by_cases h : 199 < code ∧ code < 300
      · have h2 : 200 ≤ code ∧ code ≤ 299 := ⟨by omega, by omega⟩
        simp [h, h2]
      · have h2 : ¬ (200 ≤ code ∧ code ≤ 299) := fun h2 => h ⟨by omega, by omega⟩
        simp [h, h2]
    · intro h2
      have h : 199 < code ∧ code < 300 := ⟨by omega, by omega⟩
      simp [h]


/-! ## Every tick, whatever the outside world answers -/

/-- The five ways a tick can go. -/
theorem TaskFunc_cases (env : Env) (s : State) :
    (s.lastPost = none ∧ TaskFunc env s = (s, Ret.nilDeref)) ∨
    (∃ c e, s.lastPost = some c ∧
      TaskFunc env s = ({ s with fetches := s.fetches + 1 }, Ret.err e)) ∨
    (∃ c, s.lastPost = some c ∧
      TaskFunc env s = ({ s with fetches := s.fetches + 1 }, Ret.nil)) ∨
    (∃ c posts k e, s.lastPost = some c ∧
      env.NewPosts s.fetches 5 c.FullID = Except.ok posts ∧
      TaskFunc env s
        = ({ lastPost := s.lastPost
             calls := s.calls ++ (posts.take k).map dispatchOf
             fetches := s.fetches + 1 }, Ret.err e)) ∨
    (∃ c p0 rest, s.lastPost = some c ∧
      env.NewPosts s.fetches 5 c.FullID = Except.ok (p0 :: rest) ∧
      TaskFunc env s
        = ({ lastPost := some p0
             calls := s.calls ++ (p0 :: rest).map dispatchOf
             fetches := s.fetches + 1 }, Ret.nil)) := by
  obtain ⟨lp, calls, fetches⟩ := s
  cases lp with
  | none => exact Or.inl ⟨rfl, rfl⟩
  | some c =>
    right
    cases hf : env.NewPosts fetches 5 c.FullID with
    | error e =>
      exact Or.inl ⟨c, e, rfl, by simp only [TaskFunc, hf]⟩
    | ok posts =>
      right
      cases posts with
      | nil => exact Or.inl ⟨c, rfl, by simp only [TaskFunc, hf]⟩
      | cons p0 rest =>
        right
        obtain ⟨k, -, hst, hnone⟩ := rangePosts_shape env (p0 :: rest)
          { lastPost := some c, calls := calls, fetches := fetches + 1 }
        cases hr : rangePosts env (p0 :: rest)
            { lastPost := some c, calls := calls, fetches := fetches + 1 } with
        | mk s2 r =>
          rw [hr] at hst hnone
          simp only at hst hnone
          cases r with
          | some e =>
            refine Or.inl ⟨c, p0 :: rest, k, e, rfl, hf, ?_⟩
            simp only [TaskFunc, hf, hr, hst]
          | none =>
            refine Or.inr ⟨c, p0, rest, rfl, hf, ?_⟩
            have hk : k = (p0 :: rest).length := hnone rfl
            have htake : (p0 :: rest).take k = p0 :: rest :=
              List.take_of_length_le (Nat.le_of_eq hk.symm)
            simp only [TaskFunc, hf, hr, hst, updateLastPost, htake]

/-- A tick leaves the cursor alone or moves it to a strictly more recent
item. -/
theorem TaskFunc_cursor (recency : String → Nat) (env : Env)
    (hfeed : NewerThanBefore recency env) (s : State) :
    (TaskFunc env s).1.lastPost = s.lastPost ∨
    ∃ c c', s.lastPost = some c ∧ (TaskFunc env s).1.lastPost = some c' ∧
      recency c.FullID < recency c'.FullID := by
  rcases TaskFunc_cases env s with ⟨-, h⟩ | ⟨c, e, -, h⟩ | ⟨c, -, h⟩ |
      ⟨c, posts, k, e, -, -, h⟩ | ⟨c, p0, rest, hc, hf, h⟩
  · exact Or.inl (by rw [h])
  · exact Or.inl (by rw [h])
  · exact Or.inl (by rw [h])
  · exact Or.inl (by rw [h])
  · refine Or.inr ⟨c, p0, hc, by rw [h], ?_⟩
    exact hfeed s.fetches c.FullID (p0 :: rest) hf p0 (List.mem_cons_self p0 rest)

/-- A tick never moves the cursor to an older item. -/
theorem TaskFunc_cursor_le (recency : String → Nat) (env : Env)
    (hfeed : NewerThanBefore recency env) (s : State) (c : Post)
    (hc : s.lastPost = some c) :
    ∃ c', (TaskFunc env s).1.lastPost = some c' ∧
      recency c.FullID ≤ recency c'.FullID := by
  rcases TaskFunc_cursor recency env hfeed s with h | ⟨d, c', hd, hc', hlt⟩
  · exact ⟨c, by rw [h, hc], Nat.le_refl _⟩
  · rw [hc] at hd
    obtain rfl : c = d := by simpa using hd
    exact ⟨c', hc', Nat.le_of_lt hlt⟩

/-! ## Runs -/

theorem run_of_step_none (env : Env) (p : Proc) (h : step env p = none) :
    ∀ n, run env n p = p
  | 0 => rfl
  | n + 1 => by simp only [run, h]

theorem run_add (env : Env) : ∀ (i d : Nat) (p : Proc),
    run env (i + d) p = run env d (run env i p)
  | 0, d, p => by simp [run]
  | i + 1, d, p => by
    have hsucc : i + 1 + d = (i + d) + 1 := by omega
    rw [hsucc]
    cases h : step env p with
    | none => simp only [run, h, run_of_step_none env p h d]
    | some q => simp only [run, h, run_add env i d q]

/-- A property kept by every step is kept by every run. -/
theorem run_keeps (env : Env) (I : Proc → Prop)
    (hstep : ∀ p q, I p → step env p = some q → I q) :
    ∀ (n : Nat) (p : Proc), I p → I (run env n p)
  | 0, _, h => h
  | n + 1, p, h => by
    cases hs : step env p with
    | none => simpa only [run, hs] using h
    | some q => simpa only [run, hs] using run_keeps env I hstep n q (hstep p q h hs)

/-- A step runs the tick body on the state, or leaves the state alone. -/
theorem step_state (env : Env) (p q : Proc) (h : step env p = some q) :
    q.st = p.st ∨ q.st = (TaskFunc env p.st).1 := by
  obtain ⟨s, sched⟩ := p
  cases sched with
  | Idle =>
    simp only [step, Option.some.injEq] at h
    exact Or.inl (by rw [← h])
  | Polling =>
    right
    simp only [step] at h
    cases hr : TaskFunc env s with
    | mk s' r =>
      rw [hr] at h
      cases r <;> simp only [Option.some.injEq, ErrFunc, Fatal] at h <;> rw [← h]
  | Terminated => simp [step] at h

theorem ticks_cursor_le (recency : String → Nat) (env : Env)
    (hfeed : NewerThanBefore recency env) (s : State) (c : Post) :
    ∀ (i d : Nat), (ticks env i s).lastPost = some c →
      ∃ c', (ticks env (i + d) s).lastPost = some c' ∧
        recency c.FullID ≤ recency c'.FullID
  | _, 0, h => ⟨c, h, Nat.le_refl _⟩
  | i, d + 1, h => by
    obtain ⟨c1, h1, hle1⟩ := ticks_cursor_le recency env hfeed s c i d h
    obtain ⟨c2, h2, hle2⟩ := TaskFunc_cursor_le recency env hfeed _ c1 h1
    exact ⟨c2, h2, Nat.le_trans hle1 hle2⟩

theorem run_cursor_le (recency : String → Nat) (env : Env)
    (hfeed : NewerThanBefore recency env) (p : Proc) (c : Post)
    (hc : p.st.lastPost = some c) (n : Nat) :
    ∃ c', (run env n p).st.lastPost = some c' ∧
      recency c.FullID ≤ recency c'.FullID := by
  refine run_keeps env
    (fun q => ∃ c', q.st.lastPost = some c' ∧ recency c.FullID ≤ recency c'.FullID)
    ?_ n p ⟨c, hc, Nat.le_refl _⟩
  rintro p q ⟨c1, h1, hle1⟩ hs
  rcases step_state env p q hs with h | h
  · exact ⟨c1, by rw [h, h1], hle1⟩
  · obtain ⟨c2, h2, hle2⟩ := TaskFunc_cursor_le recency env hfeed p.st c1 h1
    exact ⟨c2, by rw [h, h2], Nat.le_trans hle1 hle2⟩

/-- C8 (cursor monotonicity): against a feed client that returns only items
strictly more recent than the `before` cursor it is given, a tick leaves
`lastPost` unchanged or moves it to a strictly more recent item; over any
sequence of ticks, and over any run of the scheduler, a later cursor is never
older than an earlier one. -/
theorem C8_cursor_monotone (recency : String → Nat) (env : Env)
    (hfeed : NewerThanBefore recency env) :
    (∀ s, (TaskFunc env s).1.lastPost = s.lastPost ∨
      ∃ c c', s.lastPost = some c ∧ (TaskFunc env s).1.lastPost = some c' ∧
        recency c.FullID < recency c'.FullID) ∧
    (∀ s i j c c', i ≤ j → (ticks env i s).lastPost = some c →
      (ticks env j s).lastPost = some c' → recency c.FullID ≤ recency c'.FullID) ∧
    (∀ p i j c c', i ≤ j → (run env i p).st.lastPost = some c →
      (run env j p).st.lastPost = some c' → recency c.FullID ≤ recency c'.FullID) := by
  refine ⟨TaskFunc_cursor recency env hfeed, ?_, ?_⟩
  · intro s i j c c' hij hi hj
    obtain ⟨d, rfl⟩ := Nat.exists_eq_add_of_le hij
    obtain ⟨c1, h1, hle⟩ := ticks_cursor_le recency env hfeed s c i d hi
    rw [hj] at h1
    obtain rfl : c' = c1 := by simpa using h1
    exact hle
  · intro p i j c c' hij hi hj
    obtain ⟨d, rfl⟩ := Nat.exists_eq_add_of_le hij
    obtain ⟨c1, h1, hle⟩ := run_cursor_le recency env hfeed (run env i p) c hi d
    rw [← run_add, hj] at h1
    obtain rfl : c' = c1 := by simpa using h1
    exact hle


/-! ## No id is notified twice -/

theorem notifiedIDs_append (lp : Option Post) (calls : List Dispatch) (f : Nat)
    (l : List Post) :
    notifiedIDs { lastPost := lp, calls := calls ++ l.map dispatchOf, fetches := f }
      = calls.map Dispatch.id ++ l.map Post.FullID := by
  simp [notifiedIDs, dispatchOf, Function.comp_def]

/-- Ids no more recent than the cursor, followed by a prefix of a batch of
distinct ids more recent than the cursor, hold no id twice. -/
theorem nodup_append_batch (recency : String → Nat) (ids : List String) (r : Nat)
    (posts : List Post) (k : Nat)
    (hids : ids.Nodup) (hold : ∀ id ∈ ids, recency id ≤ r)
    (hposts : (posts.map Post.FullID).Nodup)
    (hnew : ∀ p ∈ posts, r < recency p.FullID) :
    (ids ++ (posts.take k).map Post.FullID).Nodup := by
  refine List.Nodup.append hids
    (List.Nodup.sublist ((List.take_sublist k posts).map Post.FullID) hposts) ?_
  intro id hid hid'
  obtain ⟨p, hp, rfl⟩ := List.mem_map.mp hid'
  have h1 := hold _ hid
  have h2 := hnew p (List.mem_of_mem_take hp)
  omega

/-- The fast-forward leaves a settled process. -/
theorem fastForward_settled (recency : String → Nat) (env : Env) :
    Settled recency (fastForward env) := by
  unfold fastForward
  cases env.NewPosts init.fetches 5 "" with
  | error e => exact ⟨List.nodup_nil, fun h => absurd rfl h⟩
  | ok posts =>
    cases posts with
    | nil => exact ⟨List.nodup_nil, fun h => absurd rfl h⟩
    | cons p0 rest =>
      simp only
      split
      · cases sendIftttRequest env (updateLastPost
            { init with fetches := init.fetches + 1 } p0).calls.length p0.Title p0.URL with
        | some e => exact ⟨List.nodup_singleton _, fun h => absurd rfl h⟩
        | none =>
          refine ⟨List.nodup_singleton _, fun _ => ⟨p0, rfl, ?_⟩⟩
          intro id hid
          have : id = p0.FullID := by
            simpa [notifiedIDs, record, updateLastPost, init, dispatchOf] using hid
          rw [this]
      · exact ⟨List.nodup_nil, fun _ => ⟨p0, rfl, by simp [notifiedIDs, updateLastPost, init]⟩⟩

/-- Against a feed of distinct items, each more recent than the cursor it was
asked about and none more recent than the head of its batch, a scheduler step
keeps a process settled. -/
theorem step_settled (recency : String → Nat) (env : Env)
    (hnewer : NewerThanBefore recency env) (hdistinct : DistinctItems env)
    (hhead : HeadIsNewest recency env) (p q : Proc)
    (hp : Settled recency p) (hs : step env p = some q) : Settled recency q := by
  obtain ⟨s, sched⟩ := p
  cases sched with
  | Terminated => simp [step] at hs
  | Idle =>
    simp only [step, Option.some.injEq] at hs
    subst hs
    exact ⟨hp.1, fun _ => hp.2 (by simp)⟩
  | Polling =>
    obtain ⟨hnodup, hcur⟩ := hp
    obtain ⟨c0, hc0, hle⟩ := hcur (by simp)
    simp only at hnodup hc0 hle
    simp only [step] at hs
    rcases TaskFunc_cases env s with ⟨hnone, -⟩ | ⟨c, e, -, h⟩ | ⟨c, hc, h⟩ |
        ⟨c, posts, k, e, hc, hf, h⟩ | ⟨c, p0, rest, hc, hf, h⟩
    · rw [hnone] at hc0
      exact absurd hc0 (by simp)
    · rw [h] at hs
      simp only [ErrFunc, Fatal, Option.some.injEq] at hs
      subst hs
      exact ⟨hnodup, fun hne => absurd rfl hne⟩
    · rw [h] at hs
      simp only [Option.some.injEq] at hs
      subst hs
      exact ⟨hnodup, fun _ => ⟨c0, hc0, hle⟩⟩
    · rw [h] at hs
      simp only [ErrFunc, Fatal, Option.some.injEq] at hs
      subst hs
      rw [hc0] at hc
      obtain rfl : c0 = c := by simpa using hc
      refine ⟨?_, fun hne => absurd rfl hne⟩
      simp only [notifiedIDs_append]
      exact nodup_append_batch recency _ (recency c0.FullID) posts k hnodup hle
        (hdistinct _ _ _ hf) (hnewer _ _ _ hf)
    · rw [h] at hs
      simp only [Option.some.injEq] at hs
      subst hs
      rw [hc0] at hc
      obtain rfl : c0 = c := by simpa using hc
      have hnew := hnewer _ _ _ hf
      refine ⟨?_, fun _ => ⟨p0, rfl, ?_⟩⟩
      · simp only [notifiedIDs_append]
        have := nodup_append_batch recency _ (recency c0.FullID) (p0 :: rest)
          (p0 :: rest).length hnodup hle (hdistinct _ _ _ hf) hnew
        rwa [List.take_length] at this
      · simp only [notifiedIDs_append]
        intro id hid
        rcases List.mem_append.mp hid with hold | hin
        · exact Nat.le_trans (hle id hold)
            (Nat.le_of_lt (hnew p0 (List.mem_cons_self p0 rest)))
        · obtain ⟨w, hw, rfl⟩ := List.mem_map.mp hin
          rcases List.mem_cons.mp hw with rfl | hw
          · exact Nat.le_refl _
          · exact hhead _ _ _ _ hf w hw


/-! ## Facts about the concrete scenarios -/

theorem serve_newer (feed : List Post) (limit : Nat) (before : String) :
    ∀ p ∈ serve feed limit before, recencyOf before < recencyOf p.FullID := by
  intro p hp
  have h := (List.mem_filter.mp (List.mem_of_mem_take hp)).2
  exact of_decide_eq_true h

theorem serve_sublist (feed : List Post) (limit : Nat) (before : String) :
    (serve feed limit before).Sublist feed :=
  (List.take_sublist _ _).trans (List.filter_sublist _)

theorem serve_length (feed : List Post) (limit : Nat) (before : String) :
    (serve feed limit before).length ≤ limit :=
  List.length_take_le _ _

theorem envOldestFirst_newer : NewerThanBefore recencyOf envOldestFirst := by
  intro n before posts h
  simp only [envOldestFirst, envNewestFirst, Except.ok.injEq] at h
  subst h
  exact serve_newer _ _ _

theorem envOldestFirst_distinct : DistinctItems envOldestFirst := by
  intro n before posts h
  simp only [envOldestFirst, envNewestFirst, Except.ok.injEq] at h
  subst h
  refine List.Nodup.sublist ((serve_sublist _ _ _).map Post.FullID) ?_
  split <;> decide

theorem envOldestFirst_atMostFive : AtMostFive envOldestFirst := by
  intro n before posts h
  simp only [envOldestFirst, envNewestFirst, Except.ok.injEq] at h
  subst h
  exact serve_length _ _ _

theorem envNewestFirst_newer : NewerThanBefore recencyOf envNewestFirst := by
  intro n before posts h
  simp only [envNewestFirst, Except.ok.injEq] at h
  subst h
  exact serve_newer _ _ _

theorem envNewestFirst_distinct : DistinctItems envNewestFirst := by
  intro n before posts h
  simp only [envNewestFirst, Except.ok.injEq] at h
  subst h
  refine List.Nodup.sublist ((serve_sublist _ _ _).map Post.FullID) ?_
  split <;> decide

theorem envNewestFirst_head : HeadIsNewest recencyOf envNewestFirst := by
  intro n before p0 rest h p hp
  simp only [envNewestFirst, Except.ok.injEq] at h
  have hsorted : NewestFirst recencyOf (p0 :: rest) := by
    rw [← h]
    refine List.Pairwise.sublist (serve_sublist _ _ _) ?_
    split <;> decide
  exact NewestFirst.head_max recencyOf p0 rest hsorted p (List.mem_cons_of_mem p0 hp)

/-! ## Claims about runs -/

/-- C1, as stated, fails: the feed returns distinct items, each strictly more
recent than the cursor it was asked about and at most five at a time, in
oldest-first order; after the fast-forward and two ticks `t3_ccc` has been
handed to the notifier twice. -/
theorem C1_oldest_first_counterexample :
    NewerThanBefore recencyOf envOldestFirst ∧ DistinctItems envOldestFirst ∧
    AtMostFive envOldestFirst ∧
    notifiedIDs (main envOldestFirst 4).st = ["t3_aaa", "t3_bbb", "t3_ccc", "t3_ccc"] ∧
    ¬ (notifiedIDs (main envOldestFirst 4).st).Nodup :=
  ⟨envOldestFirst_newer, envOldestFirst_distinct, envOldestFirst_atMostFive,
    by decide, by decide⟩

/-- C1 (amended): for every run made of the fast-forward followed by any
number of scheduler steps (the process stopping at the first failed tick),
against a feed client that on each fetch returns only distinct items strictly
more recent than the `before` cursor it was given, the first of them being the
most recent of the batch, no item id is handed to the notifier more than
once. -/
theorem C1_no_duplicate_dispatch_newest_first (recency : String → Nat) (env : Env)
    (hnewer : NewerThanBefore recency env) (hdistinct : DistinctItems env)
    (hhead : HeadIsNewest recency env) (n : Nat) :
    (notifiedIDs (main env n).st).Nodup :=
  (run_keeps env (Settled recency)
    (fun p q hp hs => step_settled recency env hnewer hdistinct hhead p q hp hs)
    n (fastForward env) (fastForward_settled recency env)).1

/-- The newest-first feed of the scenario: after the fast-forward and three
ticks the notifier has seen `t3_aaa`, `t3_ccc`, `t3_bbb`, each once. -/
theorem C1_no_duplicate_dispatch_newest_first_witness :
    notifiedIDs (main envNewestFirst 6).st = ["t3_aaa", "t3_ccc", "t3_bbb"] ∧
    (notifiedIDs (main envNewestFirst 6).st).Nodup :=
  ⟨by decide,
    C1_no_duplicate_dispatch_newest_first recencyOf envNewestFirst envNewestFirst_newer
      envNewestFirst_distinct envNewestFirst_head 6⟩

/-- The newest-first feed of the scenario: the first tick moves the cursor
from `t3_aaa` to the strictly more recent `t3_ccc`. -/
theorem C8_cursor_monotone_witness :
    NewerThanBefore recencyOf envNewestFirst ∧
    ((TaskFunc envNewestFirst afterStartup).1.lastPost = afterStartup.lastPost ∨
      ∃ c c', afterStartup.lastPost = some c ∧
        (TaskFunc envNewestFirst afterStartup).1.lastPost = some c' ∧
        recencyOf c.FullID < recencyOf c'.FullID) ∧
    (TaskFunc envNewestFirst afterStartup).1.lastPost = some postC :=
  ⟨envNewestFirst_newer,
    (C8_cursor_monotone recencyOf envNewestFirst envNewestFirst_newer).1 afterStartup,
    by decide⟩

/-- C9 (fatal propagation): a scheduler in `Polling` whose tick body returns
anything but nil steps to `Terminated` with the state the tick left; from
there no step exists, so every longer run ends in that same process: no
further fetch, notification or cursor change. -/
theorem C9_failed_tick_terminates (env : Env) (p : Proc)
    (hp : p.sched = Sched.Polling) (herr : (TaskFunc env p.st).2 ≠ Ret.nil) :
    ∃ q, step env p = some q ∧ q.sched = Sched.Terminated ∧
      q.st = (TaskFunc env p.st).1 ∧ step env q = none ∧
      ∀ n, run env n q = q ∧ run env (n + 1) p = q := by
  obtain ⟨s, sched⟩ := p
  simp only at hp herr
  subst hp
  have hstep : step env { st := s, sched := Sched.Polling }
      = some { st := (TaskFunc env s).1, sched := Sched.Terminated } := by
    simp only [step]
    cases hr : TaskFunc env s with
    | mk s' r =>
      rw [hr] at herr
      cases r with
      | nil => exact absurd rfl herr
      | err e => rfl
      | nilDeref => rfl
  have hnone : step env { st := (TaskFunc env s).1, sched := Sched.Terminated } = none := rfl
  refine ⟨_, hstep, rfl, rfl, hnone, fun n => ⟨run_of_step_none env _ hnone n, ?_⟩⟩
  simp only [run, hstep, run_of_step_none env _ hnone n]

/-- The failing notifier of the scenario: the tick whose second dispatch is
answered 500 terminates the process, and five more steps change nothing. -/
theorem C9_failed_tick_terminates_witness :
    (TaskFunc envFailing afterStartup).2 = Ret.err "failed to send IFTTT request" ∧
    ∃ q, step envFailing { st := afterStartup, sched := Sched.Polling } = some q ∧
      q.sched = Sched.Terminated ∧
      q.st = (TaskFunc envFailing afterStartup).1 ∧ step envFailing q = none ∧
      ∀ n, run envFailing n q = q ∧
        run envFailing (n + 1) { st := afterStartup, sched := Sched.Polling } = q :=
  ⟨by decide,
    C9_failed_tick_terminates envFailing { st := afterStartup, sched := Sched.Polling }
      rfl (by decide)⟩

end TurnipMon
